import Mathlib

/-!
Verification of the OmniSync lip-sync pipeline core
(src/Python/omnisync_framework.py) against its specification.

Embedding conventions:
- A video frame is a list of pixel rows with integer pixel values, so
  byte-identical frames are equal lists.  A Python slice l[a:b] with
  nonnegative bounds is (l.drop a).take (b - a), which reproduces the
  clamping behaviour of Python slicing.
- Python float arithmetic on the small constants of the source
  (0.67, 0.33, 0.2, 0.6, 0.3, 0.5, 2.0) is embedded as exact rational
  arithmetic, and int(...) truncation of a nonnegative product such as
  int(h * 0.67) as natural-number division h * 67 / 100; for
  pixel-scale or frame-count-scale operands the double rounding error
  (relative error about 1e-16) never moves the value across an integer
  boundary, so the embedding agrees with the values the source computes.
- Fallible Python operations return Except PyError, with one
  constructor per exception kind the embedded code can raise.
- The external capabilities (face locator, cv2.resize, the synthesis
  model) are opaque function parameters, as the specification itself
  prescribes for them.
-/

/-- Exception kinds of the embedded code.  zeroDivisionError models the
Python ZeroDivisionError, indexError the numpy IndexError raised by an
out-of-range column fetch.  invalidArgument is the InvalidArgument of
the specification error taxonomy; it is included so that statements
about it can be made, but the source never raises it. -/
inductive PyError where
  | zeroDivisionError
  | indexError
  | invalidArgument
deriving DecidableEq

/-- A video frame: rows of integer pixel values. -/
abbrev Frame := List (List Int)

/-- A face bounding box (x, y, w, h) in pixel coordinates, as produced
by FaceDetector.detect_face. -/
structure BBox where
  x : Nat
  y : Nat
  w : Nat
  h : Nat
deriving DecidableEq

/-- FaceDetector.extract_lip_region:
lip_y = y + int(h * 0.67), lip_h = int(h * 0.33),
lip_x = x + int(w * 0.2), lip_w = int(w * 0.6),
returning frame[lip_y : lip_y + lip_h, lip_x : lip_x + lip_w].
The float truncations are embedded as natural division (see the file
header) and the two-dimensional slice as a row slice followed by a
column slice of every selected row. -/
def extract_lip_region (frame : Frame) (face_bbox : BBox) : Frame :=
  ((frame.drop (face_bbox.y + face_bbox.h * 67 / 100)).take (face_bbox.h * 33 / 100)).map
    (fun row =>
      (row.drop (face_bbox.x + face_bbox.w * 20 / 100)).take (face_bbox.w * 60 / 100))

/-- Reading of the specification sentence for RegionExtractor, for
comparison with extract_lip_region: the crop
frame[y + 0.67h : y + h, x + 0.2w : x + 0.8w], with the fractional
lower bounds taken at their floor.  Its row slice ends at y + h and its
column slice at x + floor(0.8 w), which is where it departs from the
source. -/
def extract_lip_region_spec (frame : Frame) (b : BBox) : Frame :=
  ((frame.drop (b.y + b.h * 67 / 100)).take ((b.y + b.h) - (b.y + b.h * 67 / 100))).map
    (fun row =>
      (row.drop (b.x + b.w * 20 / 100)).take ((b.x + b.w * 80 / 100) - (b.x + b.w * 20 / 100)))

/-- DynamicGuidanceSystem temporal weighting:
temporal_weight = 1.0 - abs(frame_idx / total_frames - 0.5) * 0.3. -/
def temporal_weight (frame_idx total_frames : Nat) : ℚ :=
  1 - |(frame_idx : ℚ) / (total_frames : ℚ) - 1/2| * (3/10)

/-- DynamicGuidanceSystem audio power weighting:
audio_weight = min(audio_power * 2.0, 1.0). -/
def audio_weight (audio_power : ℚ) : ℚ :=
  min (audio_power * 2) 1

/-- DynamicGuidanceSystem.compute_guidance_strength.  The Python
expression frame_idx / total_frames raises ZeroDivisionError when
total_frames == 0; otherwise the result is
base_strength * temporal_weight * audio_weight. -/
def compute_guidance_strength (base_strength audio_power : ℚ)
    (frame_idx total_frames : Nat) : Except PyError ℚ :=
  if total_frames = 0 then .error .zeroDivisionError
  else .ok (base_strength * temporal_weight frame_idx total_frames * audio_weight audio_power)

/-- The parts of the extract_audio_features dictionary that
align_audio_video consumes: the mel spectrogram, stored as its list of
columns (so melSpec.length is mel_spec.shape[1] and entry j is the
column mel_spec[:, j]), and audio_length = len(audio) / sample_rate in
seconds. -/
structure AudioFeatures where
  melSpec : List (List ℚ)
  audioLength : ℚ
deriving DecidableEq

/-- numpy column fetch mel_spec[:, idx] with Python index semantics: a
negative index counts from the end, and an index that is still out of
range raises IndexError. -/
def npCol (m : List (List ℚ)) (idx : Int) : Except PyError (List ℚ) :=
  let j : Int := if idx < 0 then idx + m.length else idx
  if 0 ≤ j ∧ j < (m.length : Int) then .ok (m.getD j.toNat []) else .error .indexError

/-- The for-loop of align_audio_video over i in range(target_frames):
audio_idx = int(i * mel_cols / target_frames), then
audio_idx = min(audio_idx, mel_cols - 1) as a Python int (so it is -1
when there are no columns), then row i is mel_spec[:, audio_idx].
remaining counts the iterations left, so a call with index i and
remaining r performs the iterations i, i + 1, ..., i + r - 1. -/
def alignLoop (mel : List (List ℚ)) (target : Nat) :
    Nat → Nat → Except PyError (List (List ℚ))
  | _, 0 => .ok []
  | i, remaining + 1 =>
    let idx : Int := min ((i * mel.length / target : Nat) : Int) ((mel.length : Int) - 1)
    match npCol mel idx with
    | .error e => .error e
    | .ok col =>
      match alignLoop mel target (i + 1) remaining with
      | .error e => .error e
      | .ok rest => .ok (col :: rest)

/-- OmniSyncFramework.align_audio_video.  The statement
video_fps = len(video_frames) / audio_length runs before the loop and
its value is never used again, so its only observable effect is the
ZeroDivisionError when audio_length == 0; the embedding keeps exactly
that effect.  target_frames = len(video_frames), and the video frames
are returned unchanged alongside the aligned matrix. -/
def align_audio_video (af : AudioFeatures) (video_frames : List Frame) :
    Except PyError (List (List ℚ) × List Frame) :=
  if af.audioLength = 0 then .error .zeroDivisionError
  else
    match alignLoop af.melSpec video_frames.length 0 video_frames.length with
    | .error e => .error e
    | .ok track => .ok (track, video_frames)

/-- The source-column index the specification describes for aligned
entry i: clamp(floor(i * cols / target), 0, cols - 1).  Over Nat the
lower clamp is vacuous, leaving min (i * cols / target) (cols - 1). -/
def alignedIndex (cols target i : Nat) : Nat :=
  min (i * cols / target) (cols - 1)

/-- The aligned track the specification describes: entry i is the mel
column at alignedIndex. -/
def alignedTrack (mel : List (List ℚ)) (target : Nat) : List (List ℚ) :=
  (List.range target).map (fun i => mel.getD (alignedIndex mel.length target i) [])

/-- np.mean of a list of rationals: sum divided by length.  (For the
empty list np.mean is NaN while this embedding yields 0; the loop only
applies it to one squared row of the aligned matrix.) -/
def mean (l : List ℚ) : ℚ := l.sum / l.length

/-- The external capabilities the per-frame loop consumes, as opaque
functions: the face locator (FaceDetector.detect_face), cv2.resize to
a requested width and height, and the SimpleLipSyncModel forward pass
on the audio vector and the normalized visual tensor. -/
structure Capabilities where
  detect : Frame → Option BBox
  resize : Frame → Nat → Nat → Frame
  infer : List ℚ → List (List ℚ) → List (List ℚ)

/-- Record of one cv2.resize invocation performed by the synthesizing
branch: the image handed to the codec-side resize and the requested
output width and height. -/
structure ResizeCall where
  image : Frame
  targetW : Nat
  targetH : Nat
deriving DecidableEq

/-- The per-frame loop of OmniSyncFramework.generate_lip_sync
(for i, frame in enumerate(aligned_frames)).  total is
len(aligned_frames), fixed over the whole loop; i is the running frame
index.  When detection returns None the original frame is appended and
the loop continues.  Otherwise the lip region is cropped, the aligned
audio row is fetched (in the source this access is in bounds because i
ranges below len(aligned_frames), the row count of aligned_audio; the
embedding uses getD), the crop is resized to 64 x 64 and normalized by
255, the guidance strength is computed from the mean squared audio row,
the model forward pass runs, and - as in the source, where the
predictor output is a placeholder that is never composited - the
original frame is appended.  The second component of the result records
every resize invocation of the synthesizing branch, in frame order. -/
def syncLoop (base_strength : ℚ) (caps : Capabilities)
    (aligned_audio : List (List ℚ)) (total : Nat) :
    Nat → List Frame → Except PyError (List Frame × List ResizeCall)
  | _, [] => .ok ([], [])
  | i, frame :: rest =>
    match caps.detect frame with
    | none =>
      match syncLoop base_strength caps aligned_audio total (i + 1) rest with
      | .error e => .error e
      | .ok (outs, trace) => .ok (frame :: outs, trace)
    | some face_bbox =>
      let lip_region := extract_lip_region frame face_bbox
      let audio_input := aligned_audio.getD i []
      let lip_resized := caps.resize lip_region 64 64
      let visual_input := lip_resized.map (fun row => row.map (fun p => (p : ℚ) / 255))
      let audio_power := mean (audio_input.map (fun q => q * q))
      match compute_guidance_strength base_strength audio_power i total with
      | .error e => .error e
      | .ok _ =>
        let _output_features := caps.infer audio_input visual_input
        match syncLoop base_strength caps aligned_audio total (i + 1) rest with
        | .error e => .error e
        | .ok (outs, trace) => .ok (frame :: outs, ⟨lip_region, 64, 64⟩ :: trace)

/-- Operations issued to the cv2 video writer. -/
inductive CodecOp where
  | create (width height fps : Nat)
  | write (frame : Frame)
  | release
deriving DecidableEq

/-- OmniSyncFramework.save_video as the sequence of codec operations it
performs: nothing at all for an empty frame list (the early return
fires before the writer is constructed), and otherwise a writer
creation sized from the first frame, one write per frame in input
order, and a release. -/
def save_video (frames : List Frame) (fps : Nat) : List CodecOp :=
  match frames with
  | [] => []
  | f :: _ =>
    CodecOp.create (f.headD []).length f.length fps ::
      (frames.map CodecOp.write ++ [CodecOp.release])

/-- OmniSyncFramework.generate_lip_sync after input loading: align the
audio features with the video frames, run the per-frame loop with the
default base strength 0.7, and save the output frames at fps 25. -/
def generate_lip_sync (caps : Capabilities) (af : AudioFeatures)
    (video_frames : List Frame) :
    Except PyError (List Frame × List ResizeCall × List CodecOp) :=
  match align_audio_video af video_frames with
  | .error e => .error e
  | .ok (aligned_audio, aligned_frames) =>
    match syncLoop (7/10) caps aligned_audio aligned_frames.length 0 aligned_frames with
    | .error e => .error e
    | .ok (output_frames, trace) =>
      .ok (output_frames, trace, save_video output_frames 25)

/-! ### Helper lemmas -/

theorem nat_div_add_div_le (a b c : Nat) : a / c + b / c ≤ (a + b) / c := by
  rcases Nat.eq_zero_or_pos c with hc | hc
  · subst hc; simp
  · rw [Nat.le_div_iff_mul_le hc, Nat.add_mul]
    exact Nat.add_le_add (Nat.div_mul_le_self a c) (Nat.div_mul_le_self b c)

theorem npCol_natCast (m : List (List ℚ)) (k : Nat) (hk : k < m.length) :
    npCol m (k : Int) = .ok (m.getD k []) := by
  have h0 : ¬ ((k : Int) < 0) := by omega
  have h1 : (0 : Int) ≤ (k : Int) ∧ (k : Int) < (m.length : Int) := by omega
  simp [npCol, h0, h1]

theorem alignLoop_eq_track (mel : List (List ℚ)) (target : Nat) (hc : 1 ≤ mel.length) :
    ∀ r i, alignLoop mel target i r =
      .ok ((List.range r).map (fun k => mel.getD (alignedIndex mel.length target (i + k)) [])) := by
  intro r
  induction r with
  | zero => intro i; rfl
  | succ r ih =>
    intro i
    have hlt : alignedIndex mel.length target i < mel.length := by
      have := Nat.min_le_right (i * mel.length / target) (mel.length - 1)
      unfold alignedIndex
      omega
    have hidx : (min ((i * mel.length / target : Nat) : Int) ((mel.length : Int) - 1))
        = ((alignedIndex mel.length target i : Nat) : Int) := by
      unfold alignedIndex
      generalize (i * mel.length / target) = d
      omega
    unfold alignLoop
    simp only [hidx, npCol_natCast mel _ hlt, ih (i + 1)]
    congr 1
    rw [List.range_succ_eq_map]
    simp only [List.map_cons, List.map_map, Function.comp, Nat.add_zero]
    congr 1
    refine List.map_congr_left ?_
    intro k _
    have harg : i + 1 + k = i + Nat.succ k := by omega
    simp [Function.comp, harg]

theorem syncLoop_ok_of_total_ne (base_strength : ℚ) (caps : Capabilities)
    (aligned_audio : List (List ℚ)) (total : Nat) (ht : total ≠ 0) :
    ∀ (frames : List Frame) (i : Nat), ∃ trace,
      syncLoop base_strength caps aligned_audio total i frames = .ok (frames, trace) := by
  intro frames
  induction frames with
  | nil => intro i; exact ⟨[], rfl⟩
  | cons f rest ih =>
    intro i
    obtain ⟨trace, htrace⟩ := ih (i + 1)
    cases hdet : caps.detect f with
    | none => exact ⟨trace, by simp [syncLoop, hdet, htrace]⟩
    | some bb =>
      refine ⟨⟨extract_lip_region f bb, 64, 64⟩ :: trace, ?_⟩
      simp [syncLoop, hdet, htrace, compute_guidance_strength, ht]

/-! ### Claim theorems -/

/-- Claim C1: for every input frame list and aligned audio track, the
per-frame loop of generate_lip_sync (run, as in the source, with
total = len(aligned_frames) and starting index 0) emits exactly one
output frame per input frame in input order, and every emitted frame is
the original input frame, in the passthrough branch and in the
synthesizing branch alike; the predictor result is computed but never
composited, so the output does not depend on the capabilities at all. -/
theorem syncLoop_emits_original_frames (base_strength : ℚ) (caps : Capabilities)
    (aligned_audio : List (List ℚ)) (frames : List Frame) :
    ∃ trace, syncLoop base_strength caps aligned_audio frames.length 0 frames
      = .ok (frames, trace) := by
  cases frames with
  | nil => exact ⟨[], rfl⟩
  | cons f rest =>
    exact syncLoop_ok_of_total_ne base_strength caps aligned_audio
      (f :: rest).length (by simp) (f :: rest) 0

/-- Counterexample to claim C5: calling the guidance computation with
totalFrames == 0 yields the ZeroDivisionError of the division
frame_idx / total_frames, not the InvalidArgument the claim states. -/
theorem guidance_zero_total_div_error :
    compute_guidance_strength (7/10) 1 5 0 = .error .zeroDivisionError ∧
    compute_guidance_strength (7/10) 1 5 0 ≠ .error .invalidArgument := by
  refine ⟨rfl, ?_⟩
  intro h
  exact PyError.noConfusion (Except.error.inj h)

/-- Claim C5 as amended: for every baseStrength, audioPower and
frameIndex, calling compute_guidance_strength with totalFrames == 0
fails with a division-by-zero error; the source performs no argument
validation and never raises InvalidArgument. -/
theorem guidance_zero_total_always_zero_division
    (base_strength audio_power : ℚ) (frame_idx : Nat) :
    compute_guidance_strength base_strength audio_power frame_idx 0
      = .error .zeroDivisionError := rfl

/-- Counterexample to claim C7: a feature matrix with one column but
audio duration 0, aligned onto targetFrameCount == 0 (an empty video),
raises ZeroDivisionError instead of returning the empty track. -/
theorem align_target_zero_zero_duration_error :
    align_audio_video ⟨[[1]], 0⟩ [] = .error .zeroDivisionError ∧
    align_audio_video ⟨[[1]], 0⟩ [] ≠ .ok ([], []) := by
  refine ⟨rfl, ?_⟩
  intro h
  exact Except.noConfusion h

/-- Claim C7 as amended: for every feature matrix with at least one
column and nonzero audio duration, align with targetFrameCount == 0
returns an empty track and raises no error. -/
theorem align_empty_target_ok (af : AudioFeatures)
    (_hc : 1 ≤ af.melSpec.length) (hd : af.audioLength ≠ 0) :
    align_audio_video af [] = .ok ([], []) := by
  simp [align_audio_video, hd, alignLoop]

/-- Witness for align_empty_target_ok at a concrete one-column matrix
of duration 4. -/
theorem align_empty_target_ok_witness :
    align_audio_video ⟨[[1]], 4⟩ [] = .ok ([], []) :=
  align_empty_target_ok ⟨[[1]], 4⟩ (by simp) (by norm_num)

/-- Counterexample to claim C6: with targetFrameCount == 0 (an empty
video) a zero-column feature matrix of nonzero duration does not fail
at all - the loop body never runs and align returns the empty track. -/
theorem align_zero_columns_target_zero_ok :
    align_audio_video ⟨[], 1⟩ [] = .ok ([], []) := rfl

/-- Claim C6 as amended: for every targetFrameCount >= 1 (and nonzero
audio duration, without which the earlier division fails first), align
on a zero-column feature matrix fails, with the index error raised by
fetching column min(0, -1) = -1 of an empty matrix - the failure the
specification taxonomy names AlignmentError; for targetFrameCount == 0
it returns an empty track instead. -/
theorem align_zero_columns_errors (af : AudioFeatures)
    (video_frames : List Frame) (hm : af.melSpec = [])
    (hd : af.audioLength ≠ 0) (hf : 1 ≤ video_frames.length) :
    align_audio_video af video_frames = .error .indexError := by
  obtain ⟨mel, dur⟩ := af
  simp only at hm
  subst hm
  cases video_frames with
  | nil => simp at hf
  | cons f rest =>
    simp only [align_audio_video, if_neg hd]
    have hstep : alignLoop [] (f :: rest).length 0 (rest.length + 1)
        = .error .indexError := by
      unfold alignLoop
      simp [npCol]
    simpa [List.length_cons] using hstep ▸ rfl

/-- Witness for align_zero_columns_errors: a zero-column matrix of
duration 1 aligned onto a one-frame video raises the index error. -/
theorem align_zero_columns_errors_witness :
    align_audio_video ⟨[], 1⟩ [[[5]]] = .error .indexError :=
  align_zero_columns_errors ⟨[], 1⟩ [[[5]]] rfl (by norm_num) (by simp)

/-- Claim C8: for every fps, save_video on an empty frame sequence
performs no codec operation at all - no writer creation, no frame
write, no release - and, the early return firing before the first
frame is inspected, cannot raise. -/
theorem save_video_empty_noop (fps : Nat) : save_video [] fps = [] := rfl

/-- Claim C9: align_audio_video divides by the source audio duration
before any index mapping, so every call with duration 0 fails with a
division-by-zero error, even when the video (and hence the target frame
count) is empty and whatever the matrix contains; and among the
physically possible nonnegative durations, align can only succeed when
the duration is strictly positive. -/
theorem align_requires_positive_duration :
    (∀ (af : AudioFeatures) (video_frames : List Frame), af.audioLength = 0 →
      align_audio_video af video_frames = .error .zeroDivisionError) ∧
    (∀ (af : AudioFeatures) (video_frames : List Frame)
      (out : List (List ℚ) × List Frame), 0 ≤ af.audioLength →
      align_audio_video af video_frames = .ok out → 0 < af.audioLength) := by
  constructor
  · intro af vf h
    simp [align_audio_video, h]
  · intro af vf out hnn hok
    rcases lt_or_eq_of_le hnn with h | h
    · exact h
    · rw [align_audio_video, if_pos h.symm] at hok
      exact Except.noConfusion hok

/-- Witness for align_requires_positive_duration: a one-column matrix
of duration 0 on an empty video fails with the division error. -/
theorem align_requires_positive_duration_witness :
    align_audio_video ⟨[[1]], 0⟩ ([] : List Frame) = .error .zeroDivisionError :=
  align_requires_positive_duration.1 ⟨[[1]], 0⟩ [] rfl

/-- Claim C10: the bounding box (x, y, w, h) = (0, 0, 1, 3) has
strictly positive width and height, yet int(3 * 0.33) = 0 and
int(1 * 0.6) = 0, so extract_lip_region returns the empty crop; run on
a detector that reports this box, the synthesizing branch of the
per-frame loop hands exactly this empty image to the 64 x 64 resize
(while still emitting the original frame). -/
theorem empty_crop_reaches_resize :
    (0 < 1 ∧ 0 < 3 ∧ 3 * 33 / 100 = 0 ∧ 1 * 60 / 100 = 0) ∧
    extract_lip_region [[1, 2], [3, 4]] ⟨0, 0, 1, 3⟩ = [] ∧
    syncLoop (7/10)
      ⟨fun _ => some ⟨0, 0, 1, 3⟩, fun _ _ _ => [], fun _ _ => []⟩
      [[1]] 1 0 [[[1, 2], [3, 4]]]
      = .ok ([[[1, 2], [3, 4]]], [⟨[], 64, 64⟩]) := by
  exact ⟨by decide, rfl, rfl⟩

/-- Claim C4: for nonnegative baseStrength and audioPower, a frame
index between 0 and totalFrames and totalFrames >= 1, the guidance
computation succeeds and its value
baseStrength * temporalFactor * audioFactor lies in [0, baseStrength],
because the temporal factor and the audio factor each lie in [0, 1]. -/
theorem guidance_strength_bounded (base_strength audio_power : ℚ)
    (frame_idx total_frames : Nat) (hb : 0 ≤ base_strength)
    (hp : 0 ≤ audio_power) (hi : frame_idx ≤ total_frames)
    (ht : 1 ≤ total_frames) :
    compute_guidance_strength base_strength audio_power frame_idx total_frames
      = .ok (base_strength * temporal_weight frame_idx total_frames
              * audio_weight audio_power) ∧
    0 ≤ temporal_weight frame_idx total_frames ∧
    temporal_weight frame_idx total_frames ≤ 1 ∧
    0 ≤ audio_weight audio_power ∧
    audio_weight audio_power ≤ 1 ∧
    0 ≤ base_strength * temporal_weight frame_idx total_frames
          * audio_weight audio_power ∧
    base_strength * temporal_weight frame_idx total_frames
          * audio_weight audio_power ≤ base_strength := by
  have htq : (0 : ℚ) < (total_frames : ℚ) := by
    exact_mod_cast Nat.lt_of_lt_of_le Nat.zero_lt_one ht
  have hratio0 : (0 : ℚ) ≤ (frame_idx : ℚ) / (total_frames : ℚ) :=
    div_nonneg (by positivity) (le_of_lt htq)
  have hratio1 : (frame_idx : ℚ) / (total_frames : ℚ) ≤ 1 := by
    rw [div_le_one htq]
    exact_mod_cast hi
  have habs : |(frame_idx : ℚ) / (total_frames : ℚ) - 1/2| ≤ 1/2 := by
    rw [abs_le]
    constructor <;> linarith
  have habs0 : (0 : ℚ) ≤ |(frame_idx : ℚ) / (total_frames : ℚ) - 1/2| :=
    abs_nonneg _
  have htw0 : 0 ≤ temporal_weight frame_idx total_frames := by
    unfold temporal_weight
    linarith
  have htw1 : temporal_weight frame_idx total_frames ≤ 1 := by
    unfold temporal_weight
    linarith
  have haw0 : 0 ≤ audio_weight audio_power := by
    unfold audio_weight
    exact le_min (by positivity) (by norm_num)
  have haw1 : audio_weight audio_power ≤ 1 := min_le_right _ _
  have hok : compute_guidance_strength base_strength audio_power frame_idx total_frames
      = .ok (base_strength * temporal_weight frame_idx total_frames
              * audio_weight audio_power) := by
    have : total_frames ≠ 0 := by omega
    simp [compute_guidance_strength, this]
  refine ⟨hok, htw0, htw1, haw0, haw1, ?_, ?_⟩
  · positivity
  · nlinarith [mul_nonneg hb htw0]

/-- Witness for guidance_strength_bounded at baseStrength = 0.7,
audioPower = 1, frameIndex = 1, totalFrames = 2. -/
theorem guidance_strength_bounded_witness :
    compute_guidance_strength (7/10) 1 1 2
      = .ok ((7/10) * temporal_weight 1 2 * audio_weight 1) ∧
    0 ≤ temporal_weight 1 2 ∧ temporal_weight 1 2 ≤ 1 ∧
    0 ≤ audio_weight 1 ∧ audio_weight 1 ≤ 1 ∧
    0 ≤ (7/10) * temporal_weight 1 2 * audio_weight 1 ∧
    (7/10) * temporal_weight 1 2 * audio_weight 1 ≤ 7/10 :=
  guidance_strength_bounded (7/10) 1 1 2 (by norm_num) (by norm_num)
    (by norm_num) (by norm_num)

/-- Counterexample to claim C2: a one-column feature matrix whose audio
duration is 0, aligned onto a one-frame video (targetFrameCount = 1 and
audioFrameCount = 1), makes align raise ZeroDivisionError instead of
returning the claimed track of length 1. -/
theorem align_zero_duration_no_track :
    align_audio_video ⟨[[1]], 0⟩ [[[5]]] = .error .zeroDivisionError ∧
    align_audio_video ⟨[[1]], 0⟩ [[[5]]] ≠ .ok ([[1]], [[[5]]]) := by
  refine ⟨rfl, ?_⟩
  intro h
  exact Except.noConfusion h

/-- Claim C2 as amended: for every targetFrameCount >= 1 and every
feature matrix with audioFrameCount >= 1 columns and nonzero audio
duration, align returns the track of length targetFrameCount whose
entry i is the source column
clamp(floor(i * audioFrameCount / targetFrameCount), 0,
audioFrameCount - 1); the selected source index is monotonic
non-decreasing in i and stays within [0, audioFrameCount - 1].  (In
particular a 100-frame video with an audio track of nonzero duration
yields an aligned track of length 100.) -/
theorem align_audio_video_clamped (af : AudioFeatures)
    (video_frames : List Frame) (hd : af.audioLength ≠ 0)
    (hc : 1 ≤ af.melSpec.length) (_hf : 1 ≤ video_frames.length) :
    align_audio_video af video_frames
      = .ok (alignedTrack af.melSpec video_frames.length, video_frames) ∧
    (alignedTrack af.melSpec video_frames.length).length = video_frames.length ∧
    (∀ i j, i ≤ j → alignedIndex af.melSpec.length video_frames.length i
      ≤ alignedIndex af.melSpec.length video_frames.length j) ∧
    (∀ i, alignedIndex af.melSpec.length video_frames.length i
      ≤ af.melSpec.length - 1) := by
  refine ⟨?_, ?_, ?_, ?_⟩
  · rw [align_audio_video, if_neg hd,
      alignLoop_eq_track af.melSpec video_frames.length hc video_frames.length 0]
    simp [alignedTrack]
  · simp [alignedTrack]
  · intro i j hij
    unfold alignedIndex
    exact min_le_min (Nat.div_le_div_right (Nat.mul_le_mul_right _ hij)) le_rfl
  · intro i
    exact Nat.min_le_right _ _

/-- Witness for align_audio_video_clamped: a two-column matrix of
duration 4 aligned onto a three-frame video yields the track taking
column 0 twice and then column 1. -/
theorem align_audio_video_clamped_witness :
    align_audio_video ⟨[[1], [2]], 4⟩ [[], [], []]
      = .ok (alignedTrack [[1], [2]] 3, [[], [], []]) ∧
    alignedTrack [[1], [2]] 3 = [[1], [1], [2]] :=
  ⟨(align_audio_video_clamped ⟨[[1], [2]], 4⟩ [[], [], []]
      (by norm_num) (by simp) (by simp)).1, by decide⟩

/-- Counterexample to claim C3: on a 6 x 5 frame with bounding box
(x, y, w, h) = (0, 0, 5, 6), the claimed crop
frame[y + 0.67h : y + h, x + 0.2w : x + 0.8w] is rows 4 and 5 (the
column bounds 0.2w = 1 and 0.8w = 4 are exact here), but the source
crop is int(6 * 0.67) = 4 and int(6 * 0.33) = 1, a single row: the
source crop stops one row short of y + h.  The row discrepancy does not
depend on how the fractional row bound 0.67h = 4.02 is rounded: row 5
lies above any rounding of 4.02 and below 6, yet the source excludes
it. -/
theorem extract_lip_region_spec_mismatch :
    extract_lip_region
        [[0, 1, 2, 3, 4], [10, 11, 12, 13, 14], [20, 21, 22, 23, 24],
         [30, 31, 32, 33, 34], [40, 41, 42, 43, 44], [50, 51, 52, 53, 54]]
        ⟨0, 0, 5, 6⟩ = [[41, 42, 43]] ∧
    extract_lip_region_spec
        [[0, 1, 2, 3, 4], [10, 11, 12, 13, 14], [20, 21, 22, 23, 24],
         [30, 31, 32, 33, 34], [40, 41, 42, 43, 44], [50, 51, 52, 53, 54]]
        ⟨0, 0, 5, 6⟩ = [[41, 42, 43], [51, 52, 53]] ∧
    extract_lip_region
        [[0, 1, 2, 3, 4], [10, 11, 12, 13, 14], [20, 21, 22, 23, 24],
         [30, 31, 32, 33, 34], [40, 41, 42, 43, 44], [50, 51, 52, 53, 54]]
        ⟨0, 0, 5, 6⟩ ≠
      extract_lip_region_spec
        [[0, 1, 2, 3, 4], [10, 11, 12, 13, 14], [20, 21, 22, 23, 24],
         [30, 31, 32, 33, 34], [40, 41, 42, 43, 44], [50, 51, 52, 53, 54]]
        ⟨0, 0, 5, 6⟩ := by
  refine ⟨by decide, by decide, by decide⟩

/-- Claim C3 as amended: for every frame and bounding box (x, y, w, h),
extractRegion returns the crop of exactly floor(0.33 h) rows starting
at row y + floor(0.67 h) and floor(0.6 w) columns starting at column
x + floor(0.2 w) - that is, the crop of the specification truncated to
floor(0.33 h) rows and floor(0.6 w) columns.  Its lower edge is
y + floor(0.67 h) + floor(0.33 h), which equals the claimed y + h only
when h is a multiple of 100, and its right edge
x + floor(0.2 w) + floor(0.6 w) likewise need not reach
x + floor(0.8 w). -/
theorem extract_lip_region_truncates_spec (frame : Frame) (b : BBox) :
    extract_lip_region frame b =
      ((extract_lip_region_spec frame b).take (b.h * 33 / 100)).map
        (fun row => row.take (b.w * 60 / 100)) := by
  have hrow : b.h * 33 / 100 ≤ (b.y + b.h) - (b.y + b.h * 67 / 100) := by
    have h2 := nat_div_add_div_le (b.h * 33) (b.h * 67) 100
    have h3 : (b.h * 33 + b.h * 67) / 100 = b.h := by
      rw [← Nat.mul_add]
      norm_num
    have h4 : b.h * 67 / 100 ≤ b.h := by omega
    omega
  have hcol : b.w * 60 / 100 ≤ (b.x + b.w * 80 / 100) - (b.x + b.w * 20 / 100) := by
    have h2 := nat_div_add_div_le (b.w * 60) (b.w * 20) 100
    have h3 : b.w * 60 + b.w * 20 = b.w * 80 := by ring
    have h4 : b.w * 20 / 100 ≤ b.w * 80 / 100 :=
      Nat.div_le_div_right (by omega)
    omega
  unfold extract_lip_region extract_lip_region_spec
  rw [← List.map_take, List.take_take, min_eq_left hrow, List.map_map]
  congr 1
  funext row
  simp only [Function.comp_apply]
  rw [List.take_take, min_eq_left hcol]
